import Mathlib

/-!
Verification of the span-redaction core of the `pii-redaction-openmed`
repository (`redac_core/services/redaction.py` and
`redac_core/services/document_handler.py`) against its natural-language
specification.

The Python code is shallowly embedded:

* Python `str` values are Lean `String`s; `list(text)` is `String.data`
  (a `List Char`), so `len` counts code points exactly as Python does.
* Python integers are `Int` (entity offsets may be negative — the code
  itself guards `entity.start < 0`).
* Python list slice assignment `chars[a:b] = repl` is `py_slice_assign`,
  with CPython's clamping semantics.
* External collaborators (the `openmed` detection model `extract_pii`,
  the `openmed` `deidentify` synthesiser, `hashlib.md5(...).hexdigest()`,
  and the `fitz` / `python-docx` rendering calls) are not part of this
  repository; they enter the embedding as explicit function parameters,
  fallible ones as `Except Unit`-valued parameters.
* Python floats (`confidence`, `confidence_threshold`,
  `processing_time_seconds`) are carried as `Rat`; none of the verified
  code performs arithmetic on them, they are only stored and copied.
-/

/-- `openmed.PIIEntity`: a detected span.  The Python attribute `end` is
named `stop` here because `end` is a Lean keyword. -/
structure PIIEntity where
  text : String
  label : String
  confidence : Rat
  start : Int
  stop : Int
deriving DecidableEq

/-- `redac_core.schemas.EntityInfo` (pydantic response schema). -/
structure EntityInfo where
  text : String
  label : String
  confidence : Rat
  start : Int
  stop : Int
  redacted_text : Option String
deriving DecidableEq

/-- `redac_core.schemas.RedactionMethod` (closed string enum). -/
inductive RedactionMethod where
  | mask | remove | replace | hash | shift_dates
deriving DecidableEq

/-- `.value` of the `RedactionMethod` enum member. -/
def RedactionMethod.value : RedactionMethod → String
  | .mask => "mask"
  | .remove => "remove"
  | .replace => "replace"
  | .hash => "hash"
  | .shift_dates => "shift_dates"

/-- `redac_core.schemas.RedactionConfig`.  `device` and `output_format`
are carried as plain strings (their enum values); neither influences the
verified control flow. -/
structure RedactionConfig where
  model : String
  confidence_threshold : Rat
  use_smart_merging : Bool
  method : RedactionMethod
  date_shift_days : Option Int
  entity_types : Option (List String)
  exclude_entity_types : Option (List String)
  include_mapping : Bool
  output_format : String
  device : String
deriving DecidableEq

/-- `redac_core.schemas.RedactionResult`. -/
structure RedactionResult where
  original_text : String
  redacted_text : String
  entities : List EntityInfo
  entity_count : Nat
  mapping : Option (List (String × String))
  method : String
  model : String
  confidence_threshold : Rat
deriving DecidableEq

/-- `redac_core.schemas.BatchRedactionResult`. -/
structure BatchRedactionResult where
  results : List RedactionResult
  total_items : Nat
  successful_items : Nat
  failed_items : Nat
  total_entities : Nat
  processing_time_seconds : Rat
deriving DecidableEq

/-- CPython list slice assignment `chars[a:b] = repl` for int indices:
negative indices count from the end, indices are clamped to `[0, n]`,
and an empty slice (`b ≤ a` after clamping) inserts at position `a`. -/
def py_slice_assign (chars : List Char) (a b : Int) (repl : List Char) : List Char :=
  let n : Int := chars.length
  let i : Nat := (if a < 0 then max (n + a) 0 else min a n).toNat
  let j : Nat := (if b < 0 then max (n + b) 0 else min b n).toNat
  chars.take i ++ repl ++ chars.drop (max i j)

/-- `RedactionService._generate_replacement`.  `digest` stands for the
external `hashlib.md5(entity.text.encode("utf-8")).hexdigest()` call;
the Python `[:8]` slice on the digest string is `List.take 8` on its
code points. -/
def generate_replacement (digest : String → String) (entity : PIIEntity)
    (method : String) : String :=
  if method = "mask" then "[" ++ entity.label ++ "]"
  else if method = "remove" then ""
  else if method = "hash" then String.mk ((digest entity.text).data.take 8)
  else if method = "replace" then "[" ++ entity.label ++ "]"
  else "[" ++ entity.label ++ "]"

/-- `sorted(entities, key=lambda x: x.start, reverse=True)`: CPython's
sort is stable, and `reverse=True` keeps the original order of elements
with equal keys, which is exactly `mergeSort` with the reflexive
descending comparison on `start`. -/
def py_sort_entities (entities : List PIIEntity) : List PIIEntity :=
  entities.mergeSort (fun a b => decide (b.start ≤ a.start))

/-- One iteration of the `for entity in sorted_entities` loop body of
`RedactionService._redact_manual`: the bounds check compares against the
length of the *original* text (`len(text)`), then splices the
replacement into the working character buffer. -/
def redact_step (textLen : Int) (digest : String → String) (method : String)
    (chars : List Char) (entity : PIIEntity) : List Char :=
  if entity.start < 0 ∨ entity.stop > textLen then chars
  else py_slice_assign chars entity.start entity.stop
    (generate_replacement digest entity method).data

/-- `RedactionService._redact_manual`. -/
def redact_manual (digest : String → String) (text : String)
    (entities : List PIIEntity) (method : String) : String :=
  let sorted_entities := py_sort_entities entities
  let chars := text.data
  String.mk (sorted_entities.foldl (redact_step (text.length) digest method) chars)

/-- `RedactionService._filter_entities`: case-insensitive
include-then-exclude label filtering; Python truthiness makes `None` and
`[]` both skip a stage. -/
def filter_entities (entities : List PIIEntity)
    (include_types exclude_types : Option (List String)) : List PIIEntity :=
  let filtered := entities
  let filtered := match include_types with
    | some ts =>
        if ts.isEmpty then filtered
        else filtered.filter (fun e => (ts.map String.toLower).contains e.label.toLower)
    | none => filtered
  match exclude_types with
  | some ts =>
      if ts.isEmpty then filtered
      else filtered.filter (fun e => !((ts.map String.toLower).contains e.label.toLower))
  | none => filtered

/-- `RedactionService._entity_to_info`. -/
def entity_to_info (entity : PIIEntity) (redacted_text : Option String) : EntityInfo :=
  { text := entity.text, label := entity.label, confidence := entity.confidence,
    start := entity.start, stop := entity.stop, redacted_text := redacted_text }

/-! ### Specification-side definitions for the SpanRedactor claims -/

/-- Non-overlap of two spans (symmetric). -/
def spans_disjoint (a b : PIIEntity) : Prop :=
  a.stop ≤ b.start ∨ b.stop ≤ a.start

/-- A list of entities is pairwise non-overlapping. -/
def nonoverlapping (es : List PIIEntity) : Prop :=
  es.Pairwise spans_disjoint

instance (a b : PIIEntity) : Decidable (spans_disjoint a b) := by
  unfold spans_disjoint; infer_instance

instance (es : List PIIEntity) : Decidable (nonoverlapping es) := by
  unfold nonoverlapping; infer_instance

/-- Sum of the claimed span lengths `end - start` over an entity list. -/
def sum_spans (es : List PIIEntity) : Int :=
  (es.map (fun e => e.stop - e.start)).sum

/-- The entity order claimed by the spec sentence "sort entities by
`start` descending, tie-break by larger `end` first" — a second
definition written from the spec's words, to compare with
`py_sort_entities`, which is taken from the source. -/
def spec_sort_entities (entities : List PIIEntity) : List PIIEntity :=
  entities.mergeSort
    (fun a b => decide (b.start < a.start ∨ (a.start = b.start ∧ b.stop ≤ a.stop)))

/-- `_redact_manual` with the processing order replaced by the spec's
claimed order (used only to exhibit that the two orders are
observably different). -/
def redact_manual_spec_order (digest : String → String) (text : String)
    (entities : List PIIEntity) (method : String) : String :=
  String.mk ((spec_sort_entities entities).foldl
    (redact_step (text.length) digest method) text.data)

/-- The one-shot splice of all replacement fragments at their offsets
into the *original* text: entities are consumed right-to-left (the list
is descending by `start`), and every `take`/`drop` is computed against
original-text coordinates.  Equality of the imperative fold with this
function is the precise meaning of "replacing one span never shifts the
offsets of spans not yet processed". -/
def splice_at (repl : PIIEntity → List Char) : List Char → List PIIEntity → List Char
  | T, [] => T
  | T, e :: rest =>
      splice_at repl (T.take e.start.toNat) rest ++ repl e ++ T.drop e.stop.toNat

/-- A fixed stand-in digest used by concrete witnesses (the digest is
irrelevant to methods other than "hash"). -/
def digest0 : String → String := fun _ => "0123456789abcdef0123456789abcdef"

/-- Lowercase-hex character test (an `md5` hexdigest is lowercase hex). -/
def is_hex_char (c : Char) : Bool :=
  c.isDigit || (('a' : Char) ≤ c && c ≤ ('f' : Char))

/-! ### Concrete sample data used by witnesses and counterexamples -/

/-- Zero-width-free sample entity `"John"` at `[0,4)`. -/
def ent_john : PIIEntity :=
  { text := "John", label := "first_name", confidence := 1, start := 0, stop := 4 }

/-- Sample entity at `[0,2)`; shares its `start` with `ent_B`. -/
def ent_A : PIIEntity :=
  { text := "ab", label := "A", confidence := 1, start := 0, stop := 2 }

/-- Sample entity at `[0,5)`; shares its `start` with `ent_A` but has the
larger `end`. -/
def ent_B : PIIEntity :=
  { text := "abcde", label := "B", confidence := 1, start := 0, stop := 5 }

/-- Sample entity whose `start` exceeds the text length while its `end`
does not (`start=10`, `end=3`). -/
def ent_overrun : PIIEntity :=
  { text := "x", label := "X", confidence := 1, start := 10, stop := 3 }

/-- Sample entity `"cd"` at `[2,4)`. -/
def ent_cd : PIIEntity :=
  { text := "cd", label := "X", confidence := 1, start := 2, stop := 4 }

/-! ### Claim theorems: SpanRedactor basics -/

/-- Claim C9: `_redact_manual(T, [], method) == T` for every text and
every method string — redaction with an empty entity list returns the
input text unchanged. -/
theorem c9_empty_entities_noop (digest : String → String) (text : String)
    (method : String) : redact_manual digest text [] method = text := by
  simp [redact_manual, py_sort_entities, List.mergeSort_nil]

unseal List.merge List.mergeSort in
/-- Claim C2 (counterexample): with two entities sharing `start = 0` but
with ends `2` and `5`, supplied smaller-end first, the code's stable
`sorted(key=start, reverse=True)` keeps the input order instead of
putting the larger `end` first, and the two processing orders produce
observably different outputs — so ties are *not* broken by larger `end`
first, and with equal starts the replacement of one span *does* shift
the span processed after it. -/
theorem c2_tie_break_counterexample :
    py_sort_entities [ent_A, ent_B] ≠ spec_sort_entities [ent_A, ent_B]
    ∧ redact_manual digest0 "abcdef" [ent_A, ent_B] "mask" = "[B]ef"
    ∧ redact_manual_spec_order digest0 "abcdef" [ent_A, ent_B] "mask" = "[A]]f"
    ∧ redact_manual digest0 "abcdef" [ent_A, ent_B] "mask"
        ≠ redact_manual_spec_order digest0 "abcdef" [ent_A, ent_B] "mask" := by
  decide

/-- Claim C6 (counterexample): the entity `ent_overrun` has
`start = 10 > len("abcde") = 5` but `end = 3 ≤ 5`, so the guard
`start < 0 or end > len(text)` does *not* skip it; CPython slice
assignment clamps the empty slice `[10:3]` to position 5 and the mask
fragment is appended — the output is altered, refuting "an entity with
`start > len(text)` is silently skipped and does not alter the
output". -/
theorem c6_overrun_not_skipped_counterexample :
    redact_manual digest0 "abcde" [ent_overrun] "mask" = "abcde[X]"
    ∧ redact_manual digest0 "abcde" [ent_overrun] "mask" ≠ "abcde" := by
  constructor
  · simp [redact_manual, py_sort_entities, List.mergeSort_singleton]
    decide
  · simp [redact_manual, py_sort_entities, List.mergeSort_singleton]
    decide

/-- Claim C7: for method `"hash"`, `_generate_replacement` returns
exactly the first 8 characters of the content digest of the entity's
original text; the fragment depends only on the entity text (not on its
offsets, label, or confidence); and whenever the digest satisfies the
`hexdigest` contract (32 lowercase-hex characters) the fragment is 8
hexadecimal characters. -/
theorem c7_hash_digest_fragment (digest : String → String) (e e' : PIIEntity) :
    generate_replacement digest e "hash" = String.mk ((digest e.text).data.take 8)
    ∧ (e.text = e'.text →
        generate_replacement digest e "hash" = generate_replacement digest e' "hash")
    ∧ ((∀ s, (digest s).length = 32 ∧ ∀ c ∈ (digest s).data, is_hex_char c) →
        (generate_replacement digest e "hash").length = 8
        ∧ ∀ c ∈ (generate_replacement digest e "hash").data, is_hex_char c) := by
  refine ⟨by simp [generate_replacement], fun h => by simp [generate_replacement, h], ?_⟩
  intro hd
  have hrepl : generate_replacement digest e "hash"
      = String.mk ((digest e.text).data.take 8) := by simp [generate_replacement]
  have hlen : (digest e.text).data.length = 32 := (hd e.text).1
  constructor
  · rw [hrepl]
    show ((digest e.text).data.take 8).length = 8
    rw [List.length_take, hlen]
    decide
  · intro c hc
    rw [hrepl] at hc
    exact (hd e.text).2 c (List.mem_of_mem_take hc)

/-- Witness for C7: a concrete digest satisfying the `hexdigest`
contract, applied to the entity `"John"`. -/
theorem c7_hash_digest_fragment_witness :
    (generate_replacement digest0 ent_john "hash").length = 8
    ∧ ∀ c ∈ (generate_replacement digest0 ent_john "hash").data, is_hex_char c :=
  (c7_hash_digest_fragment digest0 ent_john ent_john).2.2
    (fun s => by simp only [digest0]; decide)

/-! ### Offset-safety lemmas for the SpanRedactor -/

/-- `sum_spans` unfolding on a cons cell. -/
theorem sum_spans_cons (e : PIIEntity) (rest : List PIIEntity) :
    sum_spans (e :: rest) = (e.stop - e.start) + sum_spans rest := by
  simp [sum_spans]

/-- For in-bounds indices CPython slice assignment is the plain
`take`/replacement/`drop` splice. -/
theorem py_slice_assign_of_bounds (chars : List Char) (a b : Int) (repl : List Char)
    (h0 : 0 ≤ a) (hab : a ≤ b) (hb : b ≤ (chars.length : Int)) :
    py_slice_assign chars a b repl
      = chars.take a.toNat ++ repl ++ chars.drop b.toNat := by
  have ha' : min a (chars.length : Int) = a := min_eq_left (le_trans hab hb)
  have hb' : min b (chars.length : Int) = b := min_eq_left hb
  have hmax : max a.toNat b.toNat = b.toNat := Nat.max_eq_right (Int.toNat_le_toNat hab)
  simp only [py_slice_assign, if_neg (not_lt.mpr h0), if_neg (not_lt.mpr (le_trans h0 hab)),
    ha', hb', hmax]

/-- An in-bounds entity is not skipped by the guard, and for the
`"remove"` method its processing step deletes exactly the slice
`[start, end)` of the working buffer. -/
theorem redact_step_remove (digest : String → String) (L : Int) (chars : List Char)
    (e : PIIEntity) (h0 : 0 ≤ e.start) (hse : e.start ≤ e.stop)
    (heL : e.stop ≤ L) (hec : e.stop ≤ (chars.length : Int)) :
    redact_step L digest "remove" chars e
      = chars.take e.start.toNat ++ chars.drop e.stop.toNat := by
  have hcond : ¬(e.start < 0 ∨ e.stop > L) :=
    not_or.mpr ⟨not_lt.mpr h0, not_lt.mpr heL⟩
  have hrep : (generate_replacement digest e "remove").data = [] := by
    simp [generate_replacement]
  rw [redact_step, if_neg hcond, hrep,
    py_slice_assign_of_bounds chars e.start e.stop [] h0 hse hec]
  simp

/-- Core length invariant for the `"remove"` fold: if every entity in
the descending, pairwise-disjoint list ends at or before position `k`
(a position inside both the working buffer and the original-length
bound `L` used by the skip guard), the fold removes exactly the sum of
the span lengths. -/
theorem remove_fold_length (digest : String → String) (L : Int) (es : List PIIEntity) :
    ∀ (chars : List Char) (k : Nat), k ≤ chars.length → (k : Int) ≤ L →
      es.Pairwise (fun a b => b.start ≤ a.start) →
      es.Pairwise spans_disjoint →
      (∀ e ∈ es, 0 ≤ e.start ∧ e.start ≤ e.stop ∧ e.stop ≤ (k : Int)) →
      ((es.foldl (redact_step L digest "remove") chars).length : Int)
        = (chars.length : Int) - sum_spans es := by
  induction es with
  | nil => intro chars k _ _ _ _ _; simp [sum_spans]
  | cons e rest ih =>
    intro chars k hk hkL hdesc hdisj hb
    obtain ⟨h0, hse, hek⟩ := hb e (List.mem_cons_self e rest)
    have hkc : (k : Int) ≤ (chars.length : Int) := by exact_mod_cast hk
    have hec : e.stop ≤ (chars.length : Int) := le_trans hek hkc
    have hstep := redact_step_remove digest L chars e h0 hse (le_trans hek hkL) hec
    rw [List.foldl_cons, hstep, sum_spans_cons]
    rcases eq_or_lt_of_le hse with hz | hlt
    · -- zero-width entity: the step leaves the buffer unchanged
      rw [hz, List.take_append_drop]
      have := ih chars k hk hkL (List.pairwise_cons.mp hdesc).2
        (List.pairwise_cons.mp hdisj).2
        (fun e' he' => hb e' (List.mem_cons_of_mem e he'))
      omega
    · -- positive-width entity: every remaining entity ends before `start`
      have hrest : ∀ e' ∈ rest, e'.stop ≤ e.start := by
        intro e' he'
        have hd : e'.start ≤ e.start := (List.pairwise_cons.mp hdesc).1 e' he'
        rcases (List.pairwise_cons.mp hdisj).1 e' he' with h | h
        · exact absurd (lt_of_lt_of_le hlt (le_trans h hd)) (lt_irrefl _)
        · exact h
      have hs0 : (e.start.toNat : Int) = e.start := Int.toNat_of_nonneg h0
      have ht0 : (e.stop.toNat : Int) = e.stop := Int.toNat_of_nonneg (le_trans h0 hse)
      have htc : e.stop.toNat ≤ chars.length := by omega
      have hlen' : (chars.take e.start.toNat ++ chars.drop e.stop.toNat).length
          = e.start.toNat + (chars.length - e.stop.toNat) := by
        simp only [List.length_append, List.length_take, List.length_drop]
        omega
      have := ih (chars.take e.start.toNat ++ chars.drop e.stop.toNat) e.start.toNat
        (by omega)
        (by omega)
        (List.pairwise_cons.mp hdesc).2
        (List.pairwise_cons.mp hdisj).2
        (fun e' he' => by
          obtain ⟨h0', hse', _⟩ := hb e' (List.mem_cons_of_mem e he')
          exact ⟨h0', hse', by rw [hs0]; exact hrest e' he'⟩)
      omega

/-- The code's sort order is descending by `start`. -/
theorem py_sort_entities_desc (es : List PIIEntity) :
    (py_sort_entities es).Pairwise (fun a b => b.start ≤ a.start) := by
  have h := @List.sorted_mergeSort PIIEntity (fun a b => decide (b.start ≤ a.start))
    (fun a b c hab hbc => by
      simp only [decide_eq_true_eq] at *
      exact le_trans hbc hab)
    (fun a b => by
      simp only [Bool.or_eq_true, decide_eq_true_eq]
      exact Int.le_total b.start a.start)
    es
  exact h.imp (fun h' => of_decide_eq_true h')

/-- The code's sort is a permutation of the input list. -/
theorem py_sort_entities_perm (es : List PIIEntity) :
    (py_sort_entities es).Perm es :=
  List.mergeSort_perm es _

/-- Claim C3: for non-overlapping, in-bounds entities
(`0 ≤ start ≤ end ≤ len(T)` for each), the length of
`_redact_manual(T, E, "remove")` is `len(T)` minus the sum of the span
lengths `end - start`. -/
theorem c3_remove_length (digest : String → String) (text : String)
    (es : List PIIEntity) (hdisj : nonoverlapping es)
    (hb : ∀ e ∈ es, 0 ≤ e.start ∧ e.start ≤ e.stop ∧ e.stop ≤ (text.length : Int)) :
    ((redact_manual digest text es "remove").length : Int)
      = (text.length : Int) - sum_spans es := by
  have hperm := py_sort_entities_perm es
  have hdisj' : (py_sort_entities es).Pairwise spans_disjoint :=
    List.Pairwise.perm hdisj hperm.symm (fun h => h.symm)
  have hb' : ∀ e ∈ py_sort_entities es,
      0 ≤ e.start ∧ e.start ≤ e.stop ∧ e.stop ≤ ((text.data.length : Nat) : Int) :=
    fun e he => hb e (hperm.mem_iff.mp he)
  have hsum : sum_spans (py_sort_entities es) = sum_spans es := by
    unfold sum_spans
    exact (hperm.map _).sum_eq
  have hmain := remove_fold_length digest (text.length : Int) (py_sort_entities es)
    text.data text.data.length (le_refl _) (le_of_eq rfl)
    (py_sort_entities_desc es) hdisj' hb'
  rw [hsum] at hmain
  exact hmain

/-- Witness for C3 at a concrete input: removing `"cd"` at `[2,4)` from
`"abcdef"` leaves 4 characters. -/
theorem c3_remove_length_witness :
    ((redact_manual digest0 "abcdef" [ent_cd] "remove").length : Int)
      = (("abcdef" : String).length : Int) - sum_spans [ent_cd] :=
  c3_remove_length digest0 "abcdef" [ent_cd] (by decide) (by decide)

/-- An in-bounds entity is not skipped by the guard; its processing step
splices the replacement fragment over `[start, end)` of the buffer. -/
theorem redact_step_of_bounds (digest : String → String) (method : String) (L : Int)
    (chars : List Char) (e : PIIEntity) (h0 : 0 ≤ e.start) (hse : e.start ≤ e.stop)
    (heL : e.stop ≤ L) (hec : e.stop ≤ (chars.length : Int)) :
    redact_step L digest method chars e
      = chars.take e.start.toNat ++ (generate_replacement digest e method).data
          ++ chars.drop e.stop.toNat := by
  have hcond : ¬(e.start < 0 ∨ e.stop > L) :=
    not_or.mpr ⟨not_lt.mpr h0, not_lt.mpr heL⟩
  rw [redact_step, if_neg hcond,
    py_slice_assign_of_bounds chars e.start e.stop _ h0 hse hec]

/-- Locality of the fold: when every entity (descending, disjoint, of
positive width) lies inside the prefix `A`, the fold never touches the
appended suffix `B`. -/
theorem redact_fold_append (digest : String → String) (method : String) (L : Int)
    (es : List PIIEntity) :
    ∀ (A B : List Char),
      es.Pairwise (fun a b => b.start ≤ a.start) →
      es.Pairwise spans_disjoint →
      (∀ e ∈ es, 0 ≤ e.start ∧ e.start < e.stop ∧ e.stop ≤ (A.length : Int) ∧ e.stop ≤ L) →
      es.foldl (redact_step L digest method) (A ++ B)
        = es.foldl (redact_step L digest method) A ++ B := by
  induction es with
  | nil => intro A B _ _ _; simp
  | cons e rest ih =>
    intro A B hdesc hdisj hb
    obtain ⟨h0, hlt, heA, heL⟩ := hb e (List.mem_cons_self e rest)
    have hse : e.start ≤ e.stop := le_of_lt hlt
    have hsA : e.start.toNat ≤ A.length := by omega
    have htA : e.stop.toNat ≤ A.length := by omega
    have hs0 : (e.start.toNat : Int) = e.start := Int.toNat_of_nonneg h0
    have hstepAB : redact_step L digest method (A ++ B) e
        = redact_step L digest method A e ++ B := by
      rw [redact_step_of_bounds digest method L (A ++ B) e h0 hse heL
          (by simp only [List.length_append]; push_cast; omega),
        redact_step_of_bounds digest method L A e h0 hse heL heA,
        List.take_append_of_le_length hsA, List.drop_append_of_le_length htA]
      simp [List.append_assoc]
    have hrest : ∀ e' ∈ rest, e'.stop ≤ e.start := by
      intro e' he'
      have hd : e'.start ≤ e.start := (List.pairwise_cons.mp hdesc).1 e' he'
      rcases (List.pairwise_cons.mp hdisj).1 e' he' with h | h
      · exact absurd (lt_of_lt_of_le hlt (le_trans h hd)) (lt_irrefl _)
      · exact h
    have hlenA' : e.start.toNat ≤ (redact_step L digest method A e).length := by
      rw [redact_step_of_bounds digest method L A e h0 hse heL heA]
      simp only [List.length_append, List.length_take]
      omega
    rw [List.foldl_cons, List.foldl_cons, hstepAB]
    exact ih (redact_step L digest method A e) B
      (List.pairwise_cons.mp hdesc).2 (List.pairwise_cons.mp hdisj).2
      (fun e' he' => by
        obtain ⟨h0', hlt', _, heL'⟩ := hb e' (List.mem_cons_of_mem e he')
        refine ⟨h0', hlt', ?_, heL'⟩
        have := hrest e' he'
        omega)

/-- The imperative right-to-left fold of `_redact_manual` computes the
one-shot splice of every replacement fragment at its *original-text*
offsets: no processed span ever shifts the offsets of spans not yet
processed.  Requires descending order, pairwise disjointness, in-bounds
offsets and positive widths. -/
theorem redact_fold_eq_splice (digest : String → String) (method : String) (L : Int)
    (es : List PIIEntity) :
    ∀ (T : List Char),
      es.Pairwise (fun a b => b.start ≤ a.start) →
      es.Pairwise spans_disjoint →
      (∀ e ∈ es, 0 ≤ e.start ∧ e.start < e.stop ∧ e.stop ≤ (T.length : Int) ∧ e.stop ≤ L) →
      es.foldl (redact_step L digest method) T
        = splice_at (fun e => (generate_replacement digest e method).data) T es := by
  induction es with
  | nil => intro T _ _ _; simp [splice_at]
  | cons e rest ih =>
    intro T hdesc hdisj hb
    obtain ⟨h0, hlt, heT, heL⟩ := hb e (List.mem_cons_self e rest)
    have hse : e.start ≤ e.stop := le_of_lt hlt
    have hrest : ∀ e' ∈ rest, e'.stop ≤ e.start := by
      intro e' he'
      have hd : e'.start ≤ e.start := (List.pairwise_cons.mp hdesc).1 e' he'
      rcases (List.pairwise_cons.mp hdisj).1 e' he' with h | h
      · exact absurd (lt_of_lt_of_le hlt (le_trans h hd)) (lt_irrefl _)
      · exact h
    have hsT : e.start.toNat ≤ T.length := by omega
    have htakelen : ((T.take e.start.toNat).length : Int) = e.start := by
      simp only [List.length_take]
      omega
    have hbrest : ∀ e' ∈ rest, 0 ≤ e'.start ∧ e'.start < e'.stop
        ∧ e'.stop ≤ ((T.take e.start.toNat).length : Int) ∧ e'.stop ≤ L := by
      intro e' he'
      obtain ⟨h0', hlt', _, heL'⟩ := hb e' (List.mem_cons_of_mem e he')
      exact ⟨h0', hlt', by rw [htakelen]; exact hrest e' he', heL'⟩
    rw [List.foldl_cons,
      redact_step_of_bounds digest method L T e h0 hse heL heT,
      List.append_assoc,
      redact_fold_append digest method L rest (T.take e.start.toNat) _
        (List.pairwise_cons.mp hdesc).2 (List.pairwise_cons.mp hdisj).2 hbrest,
      ih (T.take e.start.toNat) (List.pairwise_cons.mp hdesc).2
        (List.pairwise_cons.mp hdisj).2 hbrest]
    simp [splice_at, List.append_assoc]

/-- Claim C2 (amended): `_redact_manual` processes entities in the
stable descending-by-`start` order of `sorted(key=start, reverse=True)`
(ties keep input order).  For every non-overlapping, in-bounds,
positive-width entity list this right-to-left processing equals the
one-shot splice of all replacement fragments at their original-text
offsets — replacing one span never shifts the offsets of spans not yet
processed. -/
theorem c2_right_to_left_no_shift (digest : String → String) (text : String)
    (es : List PIIEntity) (method : String) (hdisj : nonoverlapping es)
    (hb : ∀ e ∈ es, 0 ≤ e.start ∧ e.start < e.stop ∧ e.stop ≤ (text.length : Int)) :
    redact_manual digest text es method
      = String.mk (splice_at (fun e => (generate_replacement digest e method).data)
          text.data (py_sort_entities es)) := by
  have hperm := py_sort_entities_perm es
  have hdisj' : (py_sort_entities es).Pairwise spans_disjoint :=
    List.Pairwise.perm hdisj hperm.symm (fun h => h.symm)
  have hb' : ∀ e ∈ py_sort_entities es, 0 ≤ e.start ∧ e.start < e.stop
      ∧ e.stop ≤ ((text.data.length : Nat) : Int) ∧ e.stop ≤ (text.length : Int) := by
    intro e he
    obtain ⟨h1, h2, h3⟩ := hb e (hperm.mem_iff.mp he)
    exact ⟨h1, h2, h3, h3⟩
  simp only [redact_manual]
  congr 1
  exact redact_fold_eq_splice digest method (text.length : Int) (py_sort_entities es)
    text.data (py_sort_entities_desc es) hdisj' hb'

/-- Witness for C2 (amended) at the spec's own example: `"John"` at
`[0,4)` over `"John Doe"` with method `mask`. -/
theorem c2_right_to_left_no_shift_witness :
    redact_manual digest0 "John Doe" [ent_john] "mask"
      = String.mk (splice_at (fun e => (generate_replacement digest0 e "mask").data)
          ("John Doe" : String).data (py_sort_entities [ent_john])) :=
  c2_right_to_left_no_shift digest0 "John Doe" [ent_john] "mask" (by decide) (by decide)

/-- The skip guard of `_redact_manual`, as a Boolean predicate: an
entity is kept (processed) unless `start < 0` or `end > len(text)`. -/
def keep_entity (textLen : Int) (e : PIIEntity) : Bool :=
  !(decide (e.start < 0) || decide (e.stop > textLen))

/-- A skipped entity leaves the working buffer unchanged. -/
theorem redact_step_skip (digest : String → String) (method : String) (L : Int)
    (chars : List Char) (e : PIIEntity) (h : keep_entity L e = false) :
    redact_step L digest method chars e = chars := by
  have h' : e.start < 0 ∨ e.stop > L := by
    simpa [keep_entity, not_lt, Decidable.or_iff_not_imp_left, not_le] using h
  rw [redact_step, if_pos h']

/-- Skipped entities contribute nothing: the fold over a list equals the
fold over the list with every guarded-out entity removed. -/
theorem redact_fold_skip (digest : String → String) (method : String) (L : Int)
    (es : List PIIEntity) :
    ∀ chars, es.foldl (redact_step L digest method) chars
      = (es.filter (keep_entity L)).foldl (redact_step L digest method) chars := by
  induction es with
  | nil => intro chars; rfl
  | cons e rest ih =>
    intro chars
    by_cases hk : keep_entity L e
    · rw [List.foldl_cons, List.filter_cons_of_pos hk, List.foldl_cons]
      exact ih _
    · rw [List.foldl_cons, List.filter_cons_of_neg (by simpa using hk),
        redact_step_skip digest method L chars e (by simpa using hk)]
      exact ih chars

/-- Claim C6 (amended): `_redact_manual` is total (the embedding is a
plain function — no exception path exists), every entity failing the
guard `start < 0` or `end > len(text)` is skipped and contributes no
change (the fold equals the fold over the guard-filtered list), and an
entity with `start > len(text)` is skipped *provided* `start ≤ end`
(so that `end > len(text)` too); with `end ≤ len(text) < start` the
guard does not fire (see the counterexample). -/
theorem c6_skip_out_of_range (digest : String → String) (text : String)
    (es : List PIIEntity) (method : String) (e : PIIEntity) :
    redact_manual digest text es method
      = String.mk (((py_sort_entities es).filter
          (keep_entity (text.length : Int))).foldl
            (redact_step (text.length) digest method) text.data)
    ∧ ((text.length : Int) < e.start → e.start ≤ e.stop →
        keep_entity (text.length : Int) e = false) := by
  constructor
  · simp only [redact_manual]
    congr 1
    exact redact_fold_skip digest method (text.length : Int) (py_sort_entities es)
      text.data
  · intro h1 h2
    simp only [keep_entity, Bool.not_eq_false', Bool.or_eq_true, decide_eq_true_eq]
    right
    omega

/-- Sample well-formed entity lying entirely beyond a length-3 text. -/
def ent_beyond : PIIEntity :=
  { text := "y", label := "Y", confidence := 1, start := 10, stop := 12 }

/-- Witness for C6 (amended): over the text `"abc"` (length 3) the
well-formed entity `[10,12)` is guarded out. -/
theorem c6_skip_out_of_range_witness :
    redact_manual digest0 "abc" [ent_beyond] "mask"
      = String.mk (((py_sort_entities [ent_beyond]).filter
          (keep_entity (("abc" : String).length : Int))).foldl
            (redact_step (("abc" : String).length) digest0 "mask") ("abc" : String).data)
    ∧ keep_entity (("abc" : String).length : Int) ent_beyond = false :=
  ⟨(c6_skip_out_of_range digest0 "abc" [ent_beyond] "mask" ent_beyond).1,
    (c6_skip_out_of_range digest0 "abc" [ent_beyond] "mask" ent_beyond).2
      (by decide) (by decide)⟩

/-! ### `redact_text`: strategy selection between the manual and the
delegated path -/

/-- An entity as exposed by the external `deidentify` collaborator: the
`PIIEntity` attributes plus the `redacted_text` attribute read with
`getattr(entity, "redacted_text", None)`. -/
structure DeidEntity where
  text : String
  label : String
  confidence : Rat
  start : Int
  stop : Int
  redacted_text : Option String
deriving DecidableEq

/-- `openmed.DeidentificationResult` as consumed by `redact_text`:
`pii_entities` and `mapping` are read defensively via `getattr`
defaults, hence the `Option` types. -/
structure DeidentificationResult where
  deidentified_text : String
  pii_entities : Option (List DeidEntity)
  entities : List DeidEntity
  mapping : Option (List (String × String))
deriving DecidableEq

/-- The duck-typed `_entity_to_info(entity, redacted)` call applied to a
`deidentify` entity on the delegated path. -/
def deid_entity_to_info (e : DeidEntity) : EntityInfo :=
  { text := e.text, label := e.label, confidence := e.confidence,
    start := e.start, stop := e.stop, redacted_text := e.redacted_text }

/-- `RedactionService.redact_text`.  `extract_pii` and `deidentify` are
the two external `openmed` collaborators (arguments: text, model name,
threshold, smart-merging flag; `deidentify` additionally takes the
method string, the optional `date_shift_days` kwarg and the
`keep_mapping` kwarg); either may fail, and its failure propagates (the
function body has no handler).  The `config.model or active_model_name`
Python idiom is the empty-string test. -/
def redact_text
    (extract_pii : String → String → Rat → Bool → Except Unit (List PIIEntity))
    (deidentify : String → String → String → Rat → Bool → Option Int → Bool →
      Except Unit DeidentificationResult)
    (digest : String → String) (active_model_name : String)
    (text : String) (config : RedactionConfig) : Except Unit RedactionResult :=
  let model_name := if config.model ≠ "" then config.model else active_model_name
  let method := config.method.value
  let filtering_needed :=
    config.entity_types ≠ none ∨ config.exclude_entity_types ≠ none
  if filtering_needed ∨ method ≠ "replace" then do
    let extraction_entities ← extract_pii text model_name
      config.confidence_threshold config.use_smart_merging
    let filtered_entities := filter_entities extraction_entities
      config.entity_types config.exclude_entity_types
    let redacted_text := redact_manual digest text filtered_entities method
    let final_entities := filtered_entities.map (fun e => entity_to_info e none)
    pure { original_text := text, redacted_text := redacted_text,
           entities := final_entities, entity_count := final_entities.length,
           mapping := none, method := method, model := model_name,
           confidence_threshold := config.confidence_threshold }
  else do
    let date_shift_days :=
      if method = "shift_dates" ∧ config.date_shift_days ≠ none
      then config.date_shift_days else none
    let result ← deidentify text method model_name config.confidence_threshold
      config.use_smart_merging date_shift_days config.include_mapping
    let entities_raw := match result.pii_entities with
      | some (e :: es) => e :: es
      | _ => result.entities
    let entities := entities_raw.map deid_entity_to_info
    let mapping := if config.include_mapping then
        match result.mapping with
        | some (p :: ps) => some (p :: ps)
        | _ => none
      else none
    pure { original_text := text, redacted_text := result.deidentified_text,
           entities := entities, entity_count := entities.length,
           mapping := mapping, method := method, model := model_name,
           confidence_threshold := config.confidence_threshold }

/-- The manual strategy (detection, `EntityFilter`, `SpanRedactor`) as a
named function: it receives only the `extract_pii` collaborator. -/
def manual_path
    (extract_pii : String → String → Rat → Bool → Except Unit (List PIIEntity))
    (digest : String → String) (active_model_name : String)
    (text : String) (config : RedactionConfig) : Except Unit RedactionResult := do
  let model_name := if config.model ≠ "" then config.model else active_model_name
  let method := config.method.value
  let extraction_entities ← extract_pii text model_name
    config.confidence_threshold config.use_smart_merging
  let filtered_entities := filter_entities extraction_entities
    config.entity_types config.exclude_entity_types
  let redacted_text := redact_manual digest text filtered_entities method
  let final_entities := filtered_entities.map (fun e => entity_to_info e none)
  pure { original_text := text, redacted_text := redacted_text,
         entities := final_entities, entity_count := final_entities.length,
         mapping := none, method := method, model := model_name,
         confidence_threshold := config.confidence_threshold }

/-- The delegated strategy (hand everything to `deidentify` and
translate its result): it receives only the `deidentify`
collaborator. -/
def delegated_path
    (deidentify : String → String → String → Rat → Bool → Option Int → Bool →
      Except Unit DeidentificationResult)
    (active_model_name : String) (text : String) (config : RedactionConfig) :
    Except Unit RedactionResult := do
  let model_name := if config.model ≠ "" then config.model else active_model_name
  let method := config.method.value
  let date_shift_days :=
    if method = "shift_dates" ∧ config.date_shift_days ≠ none
    then config.date_shift_days else none
  let result ← deidentify text method model_name config.confidence_threshold
    config.use_smart_merging date_shift_days config.include_mapping
  let entities_raw := match result.pii_entities with
    | some (e :: es) => e :: es
    | _ => result.entities
  let entities := entities_raw.map deid_entity_to_info
  let mapping := if config.include_mapping then
      match result.mapping with
      | some (p :: ps) => some (p :: ps)
      | _ => none
    else none
  pure { original_text := text, redacted_text := result.deidentified_text,
         entities := entities, entity_count := entities.length,
         mapping := mapping, method := method, model := model_name,
         confidence_threshold := config.confidence_threshold }

/-- Claim C5: `redact_text` takes the delegated path (consulting only
the `deidentify` collaborator) exactly when no label filtering is
requested and the method is `"replace"`; in every other case it takes
the manual path (external detection, then `_filter_entities`, then
`_redact_manual`), consulting only `extract_pii`. -/
theorem c5_strategy_selection
    (extract_pii : String → String → Rat → Bool → Except Unit (List PIIEntity))
    (deidentify : String → String → String → Rat → Bool → Option Int → Bool →
      Except Unit DeidentificationResult)
    (digest : String → String) (active_model_name : String)
    (text : String) (config : RedactionConfig) :
    redact_text extract_pii deidentify digest active_model_name text config
      = if (config.entity_types ≠ none ∨ config.exclude_entity_types ≠ none)
          ∨ config.method.value ≠ "replace"
        then manual_path extract_pii digest active_model_name text config
        else delegated_path deidentify active_model_name text config := by
  by_cases h : (config.entity_types ≠ none ∨ config.exclude_entity_types ≠ none)
      ∨ config.method.value ≠ "replace"
  · rw [if_pos h]
    simp only [redact_text, manual_path, if_pos h]
  · rw [if_neg h]
    simp only [redact_text, delegated_path, if_neg h]

/-! ### `redact_batch` -/

/-- The fallback `RedactionResult` built in the per-item exception
handler of `redact_batch`. -/
def batch_fallback_result (text : String) (config : RedactionConfig) : RedactionResult :=
  { original_text := text, redacted_text := text, entities := [],
    entity_count := 0, mapping := none, method := config.method.value,
    model := config.model, confidence_threshold := config.confidence_threshold }

/-- The `for i, text in enumerate(texts)` loop of `redact_batch`,
threading the `results` / `failed` / `total_entities` accumulators.  In
the failure branch the log f-string evaluates `ids[i]`, which raises
`IndexError` when `i ≥ len(ids)`; that access happens *inside* the
`except` handler, so the new exception propagates and aborts the whole
batch — modelled by the `.error ()` return. -/
def batch_loop (rt : String → RedactionConfig → Except Unit RedactionResult)
    (config : RedactionConfig) (ids : List String)
    (items : List (Nat × String)) (results : List RedactionResult)
    (failed : Nat) (total_entities : Nat) :
    Except Unit (List RedactionResult × Nat × Nat) :=
  match items with
  | [] => .ok (results, failed, total_entities)
  | (i, text) :: rest =>
    match rt text config with
    | .ok result =>
        batch_loop rt config ids rest (results ++ [result]) failed
          (total_entities + result.entity_count)
    | .error _ =>
        if i < ids.length then
          batch_loop rt config ids rest
            (results ++ [batch_fallback_result text config]) (failed + 1)
            total_entities
        else .error ()

/-- `RedactionService.redact_batch`.  `rt` abstracts `self.redact_text`
with its collaborators already bound; `elapsed` stands for the measured
`time.time()` difference (a float in the source, carried as `Rat` and
stored unrounded — no claim concerns the rounding). -/
def redact_batch (rt : String → RedactionConfig → Except Unit RedactionResult)
    (texts : List String) (ids : Option (List String)) (config : RedactionConfig)
    (elapsed : Rat) : Except Unit BatchRedactionResult :=
  let ids := match ids with
    | none => (List.range texts.length).map (fun i => "item_" ++ toString i)
    | some l => l
  match batch_loop rt config ids texts.enum [] 0 0 with
  | .error e => .error e
  | .ok (results, failed, total_entities) =>
      .ok { results := results, total_items := texts.length,
            successful_items := texts.length - failed, failed_items := failed,
            total_entities := total_entities,
            processing_time_seconds := elapsed }

/-- Per-item outcome of the batch as the spec describes it: the
`redact_text` result on success, the fallback result on failure. -/
def batch_spec_results (rt : String → RedactionConfig → Except Unit RedactionResult)
    (config : RedactionConfig) (texts : List String) : List RedactionResult :=
  texts.map (fun t => match rt t config with
    | .ok r => r
    | .error _ => batch_fallback_result t config)

/-- Number of items on which `redact_text` fails. -/
def batch_failed_count (rt : String → RedactionConfig → Except Unit RedactionResult)
    (config : RedactionConfig) (texts : List String) : Nat :=
  texts.countP (fun t => !(rt t config).isOk)

/-- Sum of `entity_count` over a list of results. -/
def total_entity_count (rs : List RedactionResult) : Nat :=
  (rs.map (fun r => r.entity_count)).sum

/-- When every item index stays below `len(ids)`, the batch loop never
aborts and computes exactly the spec-side per-item outcomes and
counters. -/
theorem batch_loop_ok (rt : String → RedactionConfig → Except Unit RedactionResult)
    (config : RedactionConfig) (ids : List String) (texts : List String) :
    ∀ (n : Nat) (results : List RedactionResult) (failed total_entities : Nat),
      n + texts.length ≤ ids.length →
      batch_loop rt config ids (List.enumFrom n texts) results failed total_entities
        = .ok (results ++ batch_spec_results rt config texts,
               failed + batch_failed_count rt config texts,
               total_entities + total_entity_count (batch_spec_results rt config texts)) := by
  induction texts with
  | nil =>
    intro n results failed total _
    simp [batch_loop, batch_spec_results, batch_failed_count, total_entity_count]
  | cons t ts ih =>
    intro n results failed total hlen
    simp only [List.length_cons] at hlen
    rw [List.enumFrom]
    cases hr : rt t config with
    | ok r =>
      simp only [batch_loop, hr]
      rw [ih (n + 1) (results ++ [r]) failed (total + r.entity_count) (by omega)]
      simp [batch_spec_results, batch_failed_count, total_entity_count, hr,
        List.countP_cons, Except.isOk, Except.toBool, Nat.add_assoc,
        Nat.add_comm, Nat.add_left_comm]
    | error err =>
      simp only [batch_loop, hr]
      rw [if_pos (by omega : n < ids.length)]
      rw [ih (n + 1) (results ++ [batch_fallback_result t config]) (failed + 1)
        total (by omega)]
      simp [batch_spec_results, batch_failed_count, total_entity_count,
        batch_fallback_result, hr, List.countP_cons, Except.isOk, Except.toBool,
        Nat.add_assoc, Nat.add_comm, Nat.add_left_comm]

/-- Claim C4: whenever `ids` is absent (defaulted to `item_{i}`) or long
enough, `redact_batch` catches every per-item `redact_text` failure,
continues with the remaining items, substitutes the fallback result
(`redacted_text = original_text`, `entity_count = 0`) for each failing
item, and reports `failed_items` = number of failures,
`successful_items = total_items - failed_items`, and `total_entities` =
sum of `entity_count` over all per-item results. -/
theorem c4_batch_fault_isolation
    (rt : String → RedactionConfig → Except Unit RedactionResult)
    (texts : List String) (ids : Option (List String)) (config : RedactionConfig)
    (elapsed : Rat)
    (hids : ids = none ∨ ∃ l, ids = some l ∧ texts.length ≤ l.length) :
    redact_batch rt texts ids config elapsed
      = .ok { results := batch_spec_results rt config texts,
              total_items := texts.length,
              successful_items := texts.length - batch_failed_count rt config texts,
              failed_items := batch_failed_count rt config texts,
              total_entities := total_entity_count (batch_spec_results rt config texts),
              processing_time_seconds := elapsed } := by
  have henum : texts.enum = List.enumFrom 0 texts := rfl
  rcases hids with h | ⟨l, h, hlen⟩ <;> subst h
  · simp only [redact_batch, henum]
    rw [batch_loop_ok rt config _ texts 0 [] 0 0 (by simp)]
    simp
  · simp only [redact_batch, henum]
    rw [batch_loop_ok rt config l texts 0 [] 0 0 (by omega)]
    simp

/-- Sample config for the batch witnesses. -/
def cfg0 : RedactionConfig :=
  { model := "m", confidence_threshold := 1, use_smart_merging := true,
    method := .mask, date_shift_days := none, entity_types := none,
    exclude_entity_types := none, include_mapping := false,
    output_format := "same", device := "auto" }

/-- Sample bound `redact_text`: succeeds with one entity everywhere
except on the text `"b"`, where it fails. -/
def rt0 : String → RedactionConfig → Except Unit RedactionResult :=
  fun t _ =>
    if t = "b" then .error ()
    else .ok { original_text := t, redacted_text := "[X]", entities := [],
               entity_count := 1, mapping := none, method := "mask",
               model := "m", confidence_threshold := 1 }

/-- Witness for C4 on the spec's own example `redactBatch(["a","b"])`
with detection failing on `"b"`: one success, one failure, and item b
falls back to its original text. -/
theorem c4_batch_fault_isolation_witness :
    redact_batch rt0 ["a", "b"] none cfg0 0
      = .ok { results := batch_spec_results rt0 cfg0 ["a", "b"],
              total_items := 2,
              successful_items := 2 - batch_failed_count rt0 cfg0 ["a", "b"],
              failed_items := batch_failed_count rt0 cfg0 ["a", "b"],
              total_entities := total_entity_count (batch_spec_results rt0 cfg0 ["a", "b"]),
              processing_time_seconds := 0 }
    ∧ batch_failed_count rt0 cfg0 ["a", "b"] = 1
    ∧ batch_spec_results rt0 cfg0 ["a", "b"]
        = [{ original_text := "a", redacted_text := "[X]", entities := [],
             entity_count := 1, mapping := none, method := "mask",
             model := "m", confidence_threshold := 1 },
           { original_text := "b", redacted_text := "b", entities := [],
             entity_count := 0, mapping := none, method := "mask",
             model := "m", confidence_threshold := 1 }] :=
  ⟨c4_batch_fault_isolation rt0 ["a", "b"] none cfg0 0 (Or.inl rfl),
    by decide, by decide⟩

/-- If some item whose index is at least `len(ids)` fails, the loop
reaches either that item or an earlier failing item with index at least
`len(ids)` and raises. -/
theorem batch_loop_error (rt : String → RedactionConfig → Except Unit RedactionResult)
    (config : RedactionConfig) (ids : List String) (texts : List String) :
    ∀ (n : Nat) (results : List RedactionResult) (failed total_entities : Nat),
      (∃ k, k < texts.length ∧ ids.length ≤ n + k
        ∧ (rt (texts.getD k "") config).isOk = false) →
      batch_loop rt config ids (List.enumFrom n texts) results failed total_entities
        = .error () := by
  induction texts with
  | nil =>
    rintro n results failed total ⟨k, hk, _, _⟩
    exact absurd hk (by simp)
  | cons t ts ih =>
    rintro n results failed total ⟨k, hk, hge, herr⟩
    rw [List.enumFrom]
    cases hr : rt t config with
    | ok r =>
      simp only [batch_loop, hr]
      match k with
      | 0 =>
        rw [List.getD_cons_zero, hr] at herr
        exact absurd herr (by simp [Except.isOk, Except.toBool])
      | k' + 1 =>
        exact ih (n + 1) (results ++ [r]) failed (total + r.entity_count)
          ⟨k', by simp only [List.length_cons] at hk; omega, by omega,
            by rw [List.getD_cons_succ] at herr; exact herr⟩
    | error err =>
      simp only [batch_loop, hr]
      by_cases hi : n < ids.length
      · rw [if_pos hi]
        match k with
        | 0 => omega
        | k' + 1 =>
          exact ih (n + 1) (results ++ [batch_fallback_result t config])
            (failed + 1) total
            ⟨k', by simp only [List.length_cons] at hk; omega, by omega,
              by rw [List.getD_cons_succ] at herr; exact herr⟩
      · rw [if_neg hi]

/-- Claim C10: with an `ids` list shorter than `texts`, a `redact_text`
failure on an item whose index `i` satisfies `i ≥ len(ids)` makes
`redact_batch` itself raise (the `IndexError` from `ids[i]` inside the
failure handler), aborting the whole batch. -/
theorem c10_short_ids_abort
    (rt : String → RedactionConfig → Except Unit RedactionResult)
    (texts : List String) (l : List String) (config : RedactionConfig)
    (elapsed : Rat) (i : Nat) (hi : i < texts.length) (hlen : l.length ≤ i)
    (herr : (rt (texts.getD i "") config).isOk = false) :
    redact_batch rt texts (some l) config elapsed = .error () := by
  have henum : texts.enum = List.enumFrom 0 texts := rfl
  simp only [redact_batch, henum]
  rw [batch_loop_error rt config l texts 0 [] 0 0 ⟨i, hi, by omega, herr⟩]

/-- Witness for C10: one text, an empty `ids` list, and a failing
`redact_text` abort the whole batch. -/
theorem c10_short_ids_abort_witness :
    redact_batch (fun _ _ => .error ()) ["a"] (some []) cfg0 0 = .error () :=
  c10_short_ids_abort (fun _ _ => .error ()) ["a"] [] cfg0 0 0
    (by decide) (by decide) rfl

/-! ### Document handler (`document_handler.py`)

The `fitz` (PyMuPDF) and `python-docx` calls are external collaborators;
the embedding is polymorphic in a byte type `β` with an abstract UTF-8
encoder `enc` (for `redacted_text.encode("utf-8")`).  `in_place`
abstracts the whole strategy-1 marking block (`fitz.open`, the
`page.search_for` / `add_redact_annot` / `apply_redactions` loop and
`doc.tobytes()`), `reconstruct` the strategy-2 text-flow rebuild, and
`docx_build` the `python-docx` document build; each is the outcome
(bytes or raised exception) of that collaborator-backed block. -/

/-- `Path(filename).name`: the component after the last `/`. -/
def path_name (filename : String) : String :=
  String.mk ((filename.data.reverse.takeWhile (fun c => c ≠ ('/' : Char))).reverse)

/-- `name.rfind('.')` (−1 when absent). -/
def str_rfind_dot (name : String) : Int :=
  match name.data.reverse.findIdx? (fun c => c = ('.' : Char)) with
  | some j => (name.length : Int) - 1 - j
  | none => -1

/-- `Path(name).suffix`: `name[i:]` for the last dot at `0 < i < len-1`,
else the empty string (pathlib's rule). -/
def path_suffix (name : String) : String :=
  let i := str_rfind_dot name
  if 0 < i ∧ i < (name.length : Int) - 1 then String.mk (name.data.drop i.toNat)
  else ""

/-- `Path(name).stem`: `name[:i]` for the last dot at `0 < i < len-1`,
else the whole name. -/
def path_stem (name : String) : String :=
  let i := str_rfind_dot name
  if 0 < i ∧ i < (name.length : Int) - 1 then String.mk (name.data.take i.toNat)
  else name

/-- Python `str.lower()` (per-character; the extensions involved are
ASCII). -/
def str_lower (s : String) : String := String.mk (s.data.map Char.toLower)

/-- `DocumentHandler.get_file_type`. -/
def get_file_type (filename : String) : String :=
  let ext := str_lower (path_suffix (path_name filename))
  if ext = ".doc" ∨ ext = ".docx" then "docx"
  else String.mk (ext.data.dropWhile (fun c => c = ('.' : Char)))

/-- The `try:` body of `_create_redacted_pdf`: under `if entities:` the
in-place strategy runs and returns; the strategy-2 reconstruction code
that follows the `if` block is reached only when `entities` is falsy
(which the caller has already excluded) — it is dead code. -/
def pdf_try_body {β : Type} (in_place reconstruct : Except Unit β)
    (entities : List EntityInfo) : Except Unit β :=
  if !entities.isEmpty then in_place
  else reconstruct

/-- `DocumentHandler._create_redacted_pdf`: empty entity list returns
the original bytes; otherwise the `try` body runs and any exception is
caught by the `except` clause, which emits the redacted plain text as a
`.txt` payload. -/
def create_redacted_pdf {β : Type} (enc : String → β)
    (in_place reconstruct : Except Unit β) (original_content : β)
    (redacted_text : String) (stem : String) (entities : List EntityInfo)
    (method : String) : β × String :=
  if entities.isEmpty then (original_content, stem ++ "_redacted.pdf")
  else
    match pdf_try_body in_place reconstruct entities with
    | .ok output => (output, stem ++ "_redacted.pdf")
    | .error _ => (enc redacted_text, stem ++ "_redacted.txt")

/-- `DocumentHandler._create_redacted_docx`: build a new document from
the redacted text, falling back to a `.txt` payload on failure. -/
def create_redacted_docx {β : Type} (enc : String → β) (docx_build : Except Unit β)
    (redacted_text stem : String) : β × String :=
  match docx_build with
  | .ok output => (output, stem ++ "_redacted.docx")
  | .error _ => (enc redacted_text, stem ++ "_redacted.txt")

/-- `DocumentHandler.create_redacted_document`: format selection by
normalized extension, optionally overridden by a truthy `output_format`
other than `"same"`. -/
def create_redacted_document {β : Type} (enc : String → β)
    (in_place reconstruct docx_build : Except Unit β)
    (original_content : β) (filename : String) (redacted_text : String)
    (output_format : Option String) (entities : List EntityInfo)
    (method : String) : β × String :=
  let file_type := get_file_type filename
  let stem := path_stem (path_name filename)
  let file_type := match output_format with
    | some fmt => if fmt ≠ "" ∧ fmt ≠ "same" then fmt else file_type
    | none => file_type
  if file_type = "pdf" then
    create_redacted_pdf enc in_place reconstruct original_content redacted_text
      stem entities method
  else if file_type = "docx" then
    create_redacted_docx enc docx_build redacted_text stem
  else if file_type = "txt" ∨ file_type = "md" then
    (enc redacted_text,
      stem ++ "_redacted" ++ (if file_type = "md" then ".md" else ".txt"))
  else if file_type = "json" then
    (enc redacted_text, stem ++ "_redacted.json")
  else
    (enc redacted_text, stem ++ "_redacted.txt")

/-- Claim C1 (code bug): with a non-empty entity list, when the in-place
marking block raises, `_create_redacted_pdf` returns the redacted plain
text as `{stem}_redacted.txt` — the `except` clause is reached directly
and the strategy-2 reconstruction block is unreachable dead code (the
result never depends on the reconstruction outcome), contradicting both
the spec and the function's own comments, which present reconstruction
as the fallback for a failed in-place marking. -/
theorem c1_inplace_failure_emits_txt {β : Type} (enc : String → β)
    (recon1 recon2 : Except Unit β) (original_content : β)
    (redacted_text stem : String) (e : EntityInfo) (rest : List EntityInfo)
    (method : String) :
    create_redacted_pdf enc (.error ()) recon1 original_content redacted_text
        stem (e :: rest) method
      = (enc redacted_text, stem ++ "_redacted.txt")
    ∧ ∀ (in_place : Except Unit β),
        create_redacted_pdf enc in_place recon1 original_content redacted_text
            stem (e :: rest) method
          = create_redacted_pdf enc in_place recon2 original_content
              redacted_text stem (e :: rest) method := by
  constructor
  · simp [create_redacted_pdf, pdf_try_body]
  · intro in_place
    simp [create_redacted_pdf, pdf_try_body]

/-- Claim C8: for a PDF input (no overriding output format) with an
empty entity list, `create_redacted_document` returns the original
bytes unchanged — independently of every renderer collaborator — with
filename `{stem}_redacted.pdf`. -/
theorem c8_empty_entities_identity {β : Type} (enc : String → β)
    (in_place reconstruct docx_build : Except Unit β) (original_content : β)
    (filename : String) (redacted_text : String) (output_format : Option String)
    (method : String) (hpdf : get_file_type filename = "pdf")
    (hfmt : output_format = none ∨ output_format = some ""
      ∨ output_format = some "same") :
    create_redacted_document enc in_place reconstruct docx_build original_content
        filename redacted_text output_format [] method
      = (original_content, path_stem (path_name filename) ++ "_redacted.pdf") := by
  rcases hfmt with h | h | h <;> subst h <;>
    simp [create_redacted_document, hpdf, create_redacted_pdf]

/-- Witness for C8 on `"report.pdf"` with `β := Nat` and original
content `7`. -/
theorem c8_empty_entities_identity_witness :
    create_redacted_document (fun s => s.length) (.ok 0) (.ok 0) (.ok 0) 7
        "report.pdf" "text" none [] "mask"
      = (7, path_stem (path_name "report.pdf") ++ "_redacted.pdf") :=
  c8_empty_entities_identity (fun s => s.length) (.ok 0) (.ok 0) (.ok 0) 7
    "report.pdf" "text" none "mask" (by decide) (Or.inl rfl)
